import Mathlib

/-!
Verification of the configuration-composition logic of `react-markdown-with-mdx`
(`src/index.ts`), a higher-order component that wraps `react-markdown` with MDX
JSX syntax support.

The embedding is shallow: JavaScript arrays become `List`, nullable values
become `Option`, JavaScript records (plain objects used as string-keyed maps)
become partial functions `String → Option JsValue` or association lists, and
the nullish-coalescing operator `??` becomes `Option.getD`.
-/

/-- A generic JavaScript value carried inside option records and props.
`strings` covers string-array fields such as `passThrough`; `raw` stands for
any other opaquely-passed value, identified by a tag. -/
inductive JsValue where
  | strings (l : List String)
  | raw (id : Nat)
deriving DecidableEq

/-- A unified plugin (an entry of a `PluggableList`).  The three plugins the
wrapper itself inserts are distinguished constructors; `user p` is any
caller-supplied plugin.  The `rehypeMdxElements` constructor carries its
options tuple `[rehypeMdxElements, { allowedElements }]` from the source. -/
inductive Plugin (α : Type) where
  | remarkMdx
  | remarkUnravelMdx
  | rehypeMdxElements (allowedElements : Option (List String))
  | user (p : α)
deriving DecidableEq

/-- `Object.keys` on a components map modelled as an association list in
insertion order (component names are non-index string keys, for which
JavaScript preserves insertion order). -/
def objectKeys {C : Type} (m : List (String × C)) : List String :=
  m.map Prod.fst

/-- `const allowedComponents = components ? Object.keys(components) : undefined`
(src/index.ts line 45). -/
def allowedComponents {C : Type} (components : Option (List (String × C))) :
    Option (List String) :=
  components.map objectKeys

/-- `const mergedRemarkPlugins = [remarkMdx, ...(remarkPlugins ?? []),
remarkUnravelMdx, ...(remarkMdxPlugins ?? [])]` (src/index.ts lines 38-43). -/
def mergedRemarkPlugins {α : Type}
    (remarkPlugins remarkMdxPlugins : Option (List (Plugin α))) :
    List (Plugin α) :=
  Plugin.remarkMdx :: (remarkPlugins.getD [] ++
    Plugin.remarkUnravelMdx :: remarkMdxPlugins.getD [])

/-- `const mergedRehypePlugins = [[rehypeMdxElements, { allowedElements:
allowedComponents }], ...(rehypePlugins ?? [])]` (src/index.ts lines 46-49). -/
def mergedRehypePlugins {α C : Type}
    (components : Option (List (String × C)))
    (rehypePlugins : Option (List (Plugin α))) : List (Plugin α) :=
  Plugin.rehypeMdxElements (allowedComponents components) :: rehypePlugins.getD []

/-- Whether a plugin is one of the plugins the wrapper itself requires and
inserts (as opposed to a caller-supplied one). -/
def requiredPlugin {α : Type} : Plugin α → Bool
  | .remarkMdx => true
  | .remarkUnravelMdx => true
  | .rehypeMdxElements _ => true
  | .user _ => false

/-- A plugin list has all required plugins first when no caller-supplied
plugin precedes a required one. -/
def requiredAllFirst {α : Type} (l : List (Plugin α)) : Prop :=
  ∀ i j : Fin l.length, i ≤ j → requiredPlugin (l.get j) = true →
    requiredPlugin (l.get i) = true

instance {α : Type} (l : List (Plugin α)) : Decidable (requiredAllFirst l) := by
  unfold requiredAllFirst
  infer_instance

/-- C1: the allowlist handed to the `rehypeMdxElements` plugin entry is exactly
`Object.keys` of the supplied components map, in key order: the merged rehype
plugin list starts with the entry `[rehypeMdxElements, { allowedElements:
Object.keys(components) }]`. -/
theorem C1_allowlist_is_component_keys {α C : Type}
    (components : List (String × C)) (rehypePlugins : Option (List (Plugin α))) :
    allowedComponents (some components) = some (objectKeys components) ∧
    (mergedRehypePlugins (some components) rehypePlugins).head? =
      some (Plugin.rehypeMdxElements (some (components.map Prod.fst))) := by
  constructor
  · rfl
  · rfl

/-- C9: with the components map omitted the allowlist option is `undefined`
(`none`), with an empty components map it is the empty list (`some []`), and in
both cases (indeed for every components option) the `rehypeMdxElements` entry
is the first element of the merged rehype plugin list. -/
theorem C9_absent_vs_empty_components {α C : Type} :
    allowedComponents (none : Option (List (String × C))) = none ∧
    allowedComponents (some ([] : List (String × C))) = some [] ∧
    ∀ (components : Option (List (String × C)))
      (rehypePlugins : Option (List (Plugin α))),
      (mergedRehypePlugins components rehypePlugins).head? =
        some (Plugin.rehypeMdxElements (allowedComponents components)) := by
  refine ⟨rfl, rfl, ?_⟩
  intro components rehypePlugins
  rfl

/-- C3, counterexample: with the caller-supplied remark plugin list
`[user 0]` and no `remarkMdxPlugins`, the merged remark plugin list is
`[remarkMdx, user 0, remarkUnravelMdx]`, in which the required plugin
`remarkUnravelMdx` comes after the caller-supplied plugin — so the merged list
is not "all required plugins first, caller-supplied plugins appended". -/
theorem C3_counterexample :
    mergedRemarkPlugins (some [Plugin.user 0]) (none : Option (List (Plugin Nat)))
      = [Plugin.remarkMdx, Plugin.user 0, Plugin.remarkUnravelMdx] ∧
    ¬ requiredAllFirst
        (mergedRemarkPlugins (some [Plugin.user 0]) (none : Option (List (Plugin Nat)))) := by
  constructor
  · rfl
  · decide

/-- C3, amended: the merged rehype list is the required `rehypeMdxElements`
entry followed by the caller's rehype plugins; the merged remark list
interleaves: `remarkMdx`, then the caller's `remarkPlugins`, then
`remarkUnravelMdx`, then the caller's `remarkMdxPlugins`.  Both required
remark plugins appear in every merged remark list, and each caller-supplied
list occurs in it in order (as a sublist). -/
theorem C3_merged_plugin_list_structure {α C : Type}
    (remarkPlugins remarkMdxPlugins rehypePlugins : Option (List (Plugin α)))
    (components : Option (List (String × C))) :
    mergedRemarkPlugins remarkPlugins remarkMdxPlugins =
      [Plugin.remarkMdx] ++ remarkPlugins.getD [] ++
      [Plugin.remarkUnravelMdx] ++ remarkMdxPlugins.getD [] ∧
    mergedRehypePlugins components rehypePlugins =
      [Plugin.rehypeMdxElements (allowedComponents components)] ++
        rehypePlugins.getD [] ∧
    Plugin.remarkMdx ∈ mergedRemarkPlugins remarkPlugins remarkMdxPlugins ∧
    Plugin.remarkUnravelMdx ∈ mergedRemarkPlugins remarkPlugins remarkMdxPlugins ∧
    List.Sublist (remarkPlugins.getD [])
      (mergedRemarkPlugins remarkPlugins remarkMdxPlugins) ∧
    List.Sublist (remarkMdxPlugins.getD [])
      (mergedRemarkPlugins remarkPlugins remarkMdxPlugins) ∧
    List.Sublist (rehypePlugins.getD [])
      (mergedRehypePlugins components rehypePlugins) := by
  refine ⟨by simp [mergedRemarkPlugins], rfl, ?_, ?_, ?_, ?_, ?_⟩
  · exact List.mem_cons_self _ _
  · simp [mergedRemarkPlugins]
  · unfold mergedRemarkPlugins
    exact ((List.sublist_append_left _ _).trans (List.sublist_cons_self _ _))
  · unfold mergedRemarkPlugins
    refine List.Sublist.trans ?_ (List.sublist_cons_self _ _)
    exact List.Sublist.trans
      ((List.sublist_cons_self _ _).trans (List.sublist_append_right _ _)) (List.Sublist.refl _)
  · exact List.sublist_cons_self _ _

/-- A JavaScript record (plain object) as a partial map from field names to
values; `none` means the field is absent. -/
def JsRecord : Type := String → Option JsValue

/-- The empty record (spreading `undefined` contributes no fields). -/
def emptyRecord : JsRecord := fun _ => none

/-- The required remark-rehype options record
`{ passThrough: ["mdxJsxFlowElement", "mdxJsxTextElement"] }` that the wrapper
always supplies (src/index.ts line 53). -/
def requiredRemarkRehype : JsRecord :=
  fun k =>
    if k = "passThrough" then
      some (JsValue.strings ["mdxJsxFlowElement", "mdxJsxTextElement"])
    else none

/-- Shallow object-spread merge `{ ...base, ...override }`: a field present in
`override` wins, otherwise the field of `base` is used. -/
def spreadMerge (base override : JsRecord) : JsRecord :=
  fun k =>
    match override k with
    | some v => some v
    | none => base k

/-- `const mergedRemarkRehypeOptions = { passThrough: [...], ...remarkRehypeOptions }`
(src/index.ts lines 52-55); spreading an absent (`undefined`) record adds
nothing. -/
def mergedRemarkRehypeOptions (remarkRehypeOptions : Option JsRecord) : JsRecord :=
  spreadMerge requiredRemarkRehype (remarkRehypeOptions.getD emptyRecord)

/-- C4: the merged remark-rehype options are the shallow merge of the required
passthrough record with the caller's record: a field present in the caller's
record (`passThrough` included) overrides, an absent field falls back to the
required record, and with no caller record the result is exactly the required
record, whose only field is
`passThrough = ["mdxJsxFlowElement", "mdxJsxTextElement"]`. -/
theorem C4_remark_rehype_shallow_merge (r : JsRecord) (k : String) (v : JsValue) :
    (r k = some v → mergedRemarkRehypeOptions (some r) k = some v) ∧
    (r k = none → mergedRemarkRehypeOptions (some r) k = requiredRemarkRehype k) ∧
    mergedRemarkRehypeOptions none = requiredRemarkRehype ∧
    requiredRemarkRehype "passThrough" =
      some (JsValue.strings ["mdxJsxFlowElement", "mdxJsxTextElement"]) ∧
    (k ≠ "passThrough" → requiredRemarkRehype k = none) := by
  refine ⟨?_, ?_, ?_, rfl, ?_⟩
  · intro h
    simp [mergedRemarkRehypeOptions, spreadMerge, h]
  · intro h
    simp [mergedRemarkRehypeOptions, spreadMerge, h]
  · funext k2
    simp [mergedRemarkRehypeOptions, spreadMerge, emptyRecord]
  · intro h
    simp [requiredRemarkRehype, h]

/-- Witness for C4 at a concrete record: the caller record
`{ passThrough: [], footnoteLabel: raw 7 }` overrides `passThrough`, an absent
key `skipHtml` falls back to the required record (absent there too), and the
required defaults hold. -/
theorem C4_witness :
    ((fun k => if k = "passThrough" then some (JsValue.strings [])
               else if k = "footnoteLabel" then some (JsValue.raw 7)
               else none) : JsRecord) "passThrough" = some (JsValue.strings []) ∧
    mergedRemarkRehypeOptions
      (some (fun k => if k = "passThrough" then some (JsValue.strings [])
                      else if k = "footnoteLabel" then some (JsValue.raw 7)
                      else none)) "passThrough" = some (JsValue.strings []) := by
  have h := C4_remark_rehype_shallow_merge
    (fun k => if k = "passThrough" then some (JsValue.strings [])
              else if k = "footnoteLabel" then some (JsValue.raw 7)
              else none) "passThrough" (JsValue.strings [])
  exact ⟨by decide, h.1 (by decide)⟩

/-- The props accepted by the underlying `react-markdown` renderer
(`Options`): the four fields the wrapper touches, plus `rest` for every other
prop (the object-rest `...props` of the destructuring).  `α` is the type of
caller-supplied plugins, `C` the type of renderer components. -/
structure RMOptions (α C : Type) where
  components : Option (List (String × C))
  remarkPlugins : Option (List (Plugin α))
  rehypePlugins : Option (List (Plugin α))
  remarkRehypeOptions : Option JsRecord
  rest : JsRecord

/-- `interface WithMdxOptions extends Options { remarkMdxPlugins?:
PluggableList | null | undefined }` (src/index.ts lines 15-17). -/
structure WithMdxOptions (α C : Type) extends RMOptions α C where
  remarkMdxPlugins : Option (List (Plugin α))

/-- The props object that `ReactMarkdownWithMdx` builds and passes to the
wrapped `MarkdownComponent`: `{ ...props, components, remarkPlugins:
mergedRemarkPlugins, rehypePlugins: mergedRehypePlugins, remarkRehypeOptions:
mergedRemarkRehypeOptions }` (src/index.ts lines 57-63). -/
def composeConfig {α C : Type} (p : WithMdxOptions α C) : RMOptions α C where
  components := p.components
  remarkPlugins := some (mergedRemarkPlugins p.remarkPlugins p.remarkMdxPlugins)
  rehypePlugins := some (mergedRehypePlugins p.components p.rehypePlugins)
  remarkRehypeOptions := some (mergedRemarkRehypeOptions p.remarkRehypeOptions)
  rest := p.rest

/-- `withMdx` (src/index.ts lines 28-66): takes the renderer component and
returns the wrapped component, which renders the underlying component with
the composed configuration. -/
def withMdx {α C R : Type} (MarkdownComponent : RMOptions α C → R) :
    WithMdxOptions α C → R :=
  fun p => MarkdownComponent (composeConfig p)

/-- C7: the wrapped component returned by `withMdx` accepts exactly the
renderer's options plus one additional optional `remarkMdxPlugins` field:
pairing an `RMOptions` with an optional plugin list and projecting back are
mutually inverse, so `WithMdxOptions` is exactly `RMOptions` plus that one
field, and every option record valid for the renderer is accepted by the
wrapped component (with the extra field defaulted to absent). -/
theorem C7_options_extend_renderer_options {α C R : Type}
    (o : RMOptions α C) (m : Option (List (Plugin α)))
    (w : WithMdxOptions α C) (MarkdownComponent : RMOptions α C → R) :
    (WithMdxOptions.mk o m).toRMOptions = o ∧
    (WithMdxOptions.mk o m).remarkMdxPlugins = m ∧
    WithMdxOptions.mk w.toRMOptions w.remarkMdxPlugins = w ∧
    withMdx MarkdownComponent (WithMdxOptions.mk o none) =
      MarkdownComponent (composeConfig (WithMdxOptions.mk o none)) := by
  refine ⟨rfl, rfl, rfl, rfl⟩

/-- C6: every prop other than the four merged ones (`remarkPlugins`,
`remarkMdxPlugins`, `rehypePlugins`, `remarkRehypeOptions`) — the components
map included — is forwarded to the underlying renderer unchanged: the
forwarded `components` field and the whole rest-record are the caller's own
values, field for field. -/
theorem C6_other_props_forwarded_unchanged {α C : Type}
    (p : WithMdxOptions α C) (k : String) (v : JsValue) :
    (composeConfig p).components = p.components ∧
    (composeConfig p).rest = p.rest ∧
    (p.rest k = some v → (composeConfig p).rest k = some v) := by
  exact ⟨rfl, rfl, fun h => h⟩

/-- Witness for C6: a concrete props object whose rest-record carries
`skipHtml = raw 1`; the forwarded rest-record carries it unchanged. -/
theorem C6_witness :
    (({ components := some [("TestButton", 0)]
        remarkPlugins := none
        rehypePlugins := none
        remarkRehypeOptions := none
        rest := fun k => if k = "skipHtml" then some (JsValue.raw 1) else none
        remarkMdxPlugins := none } : WithMdxOptions Nat Nat).rest "skipHtml"
      = some (JsValue.raw 1)) ∧
    (composeConfig
      ({ components := some [("TestButton", 0)]
         remarkPlugins := none
         rehypePlugins := none
         remarkRehypeOptions := none
         rest := fun k => if k = "skipHtml" then some (JsValue.raw 1) else none
         remarkMdxPlugins := none } : WithMdxOptions Nat Nat)).rest "skipHtml"
      = some (JsValue.raw 1) := by
  refine ⟨by decide, ?_⟩
  exact (C6_other_props_forwarded_unchanged _ "skipHtml" (JsValue.raw 1)).2.2 (by decide)

/-- C8: the configuration composition is a pure function of the props — equal
props yield equal composed configurations — and it does not alter any
caller-supplied list or record: each caller list reappears intact inside the
merged lists (as a contiguous segment), and the caller's components map,
options record and remaining props reappear untouched. -/
theorem C8_composition_deterministic_nonmutating {α C : Type}
    (p q : WithMdxOptions α C) (h : p = q) :
    composeConfig p = composeConfig q ∧
    (∃ pre post, (composeConfig p).remarkPlugins =
      some (pre ++ p.remarkPlugins.getD [] ++ post)) ∧
    (∃ pre post, (composeConfig p).remarkPlugins =
      some (pre ++ p.remarkMdxPlugins.getD [] ++ post)) ∧
    (∃ pre, (composeConfig p).rehypePlugins =
      some (pre ++ p.rehypePlugins.getD [] ++ [])) ∧
    (composeConfig p).components = p.components ∧
    (composeConfig p).rest = p.rest ∧
    (∀ k v, (p.remarkRehypeOptions.getD emptyRecord) k = some v →
      ((composeConfig p).remarkRehypeOptions.getD emptyRecord) k = some v) := by
  subst h
  refine ⟨rfl, ?_, ?_, ?_, rfl, rfl, ?_⟩
  · exact ⟨[Plugin.remarkMdx],
      Plugin.remarkUnravelMdx :: p.remarkMdxPlugins.getD [],
      by simp [composeConfig, mergedRemarkPlugins]⟩
  · exact ⟨Plugin.remarkMdx :: p.remarkPlugins.getD [] ++ [Plugin.remarkUnravelMdx], [],
      by simp [composeConfig, mergedRemarkPlugins]⟩
  · exact ⟨[Plugin.rehypeMdxElements (allowedComponents p.components)],
      by simp [composeConfig, mergedRehypePlugins]⟩
  · intro k v h2
    simp [composeConfig, mergedRemarkRehypeOptions, spreadMerge, h2]

/-- Witness for C8 at a concrete props object (the hypothesis `p = q`
discharged by reflexivity). -/
theorem C8_witness :
    composeConfig
      ({ components := none, remarkPlugins := some [Plugin.user 5],
         rehypePlugins := none, remarkRehypeOptions := none,
         rest := emptyRecord, remarkMdxPlugins := none } : WithMdxOptions Nat Nat) =
    composeConfig
      ({ components := none, remarkPlugins := some [Plugin.user 5],
         rehypePlugins := none, remarkRehypeOptions := none,
         rest := emptyRecord, remarkMdxPlugins := none } : WithMdxOptions Nat Nat) ∧
    (composeConfig
      ({ components := none, remarkPlugins := some [Plugin.user 5],
         rehypePlugins := none, remarkRehypeOptions := none,
         rest := emptyRecord, remarkMdxPlugins := none } : WithMdxOptions Nat Nat)).components
      = none := by
  have h := C8_composition_deterministic_nonmutating
    ({ components := none, remarkPlugins := some [Plugin.user 5],
       rehypePlugins := none, remarkRehypeOptions := none,
       rest := emptyRecord, remarkMdxPlugins := none } : WithMdxOptions Nat Nat)
    ({ components := none, remarkPlugins := some [Plugin.user 5],
       rehypePlugins := none, remarkRehypeOptions := none,
       rest := emptyRecord, remarkMdxPlugins := none } : WithMdxOptions Nat Nat)
    rfl
  exact ⟨h.1, h.2.2.2.2.1⟩

/-- A hast element node as seen by a component renderer: only its
`properties` record matters to `mdxComponent`. -/
structure HastElement where
  properties : JsRecord

/-- The object `{ ...node?.properties, children }` built inside the component
returned by `mdxComponent` (src/index.ts line 76): the `children` shorthand
comes after the spread, so the `children` key always holds the children
argument, and when `node` is `undefined` the optional chain spreads nothing. -/
def nodePropsWithChildren (node : Option HastElement) (children : JsValue) :
    JsRecord :=
  fun k =>
    if k = "children" then some children
    else
      match node with
      | some nd => nd.properties k
      | none => none

/-- `mdxComponent` (src/index.ts lines 71-82): given a renderer function and a
schema validator, returns a node-rendering function that parses the merged
props object with the validator and renders the component on the parsed
result; a validator failure propagates as the thrown error (modelled with
`Except`). -/
def mdxComponent {P Out E : Type} (Component : P → Out)
    (validatorParse : JsRecord → Except E P) :
    Option HastElement → JsValue → Except E Out :=
  fun node children =>
    (validatorParse (nodePropsWithChildren node children)).map Component

/-- C5: the function returned by `mdxComponent` validates the merged object of
node properties and children first; when the validator succeeds the renderer
is invoked on the validated result, and when the validator fails the
validator's own error is raised and the renderer is never invoked (the
outcome is the same for every renderer). -/
theorem C5_mdx_component_validates_before_render {P Out E : Type}
    (Component : P → Out) (validatorParse : JsRecord → Except E P)
    (node : Option HastElement) (children : JsValue) (p : P) (e : E) :
    (validatorParse (nodePropsWithChildren node children) = Except.ok p →
      mdxComponent Component validatorParse node children =
        Except.ok (Component p)) ∧
    (validatorParse (nodePropsWithChildren node children) = Except.error e →
      mdxComponent Component validatorParse node children = Except.error e ∧
      ∀ Component2 : P → Out,
        mdxComponent Component2 validatorParse node children =
          mdxComponent Component validatorParse node children) := by
  constructor
  · intro h
    simp [mdxComponent, h, Except.map]
  · intro h
    refine ⟨by simp [mdxComponent, h, Except.map], ?_⟩
    intro Component2
    simp [mdxComponent, h, Except.map]

/-- Witness for C5: a validator that requires a `"title"` field succeeds on a
node carrying it and fails with error 42 on an absent node, in which case both
renderers agree on the outcome. -/
theorem C5_witness :
    ((fun r => match r "title" with
               | some (JsValue.raw n) => Except.ok n
               | _ => Except.error 42) : JsRecord → Except Nat Nat)
      (nodePropsWithChildren (some ⟨fun k =>
        if k = "title" then some (JsValue.raw 9) else none⟩) (JsValue.raw 0))
      = Except.ok 9 ∧
    mdxComponent (fun n => n + 1)
      (fun r => match r "title" with
                | some (JsValue.raw n) => Except.ok n
                | _ => Except.error 42)
      (some ⟨fun k => if k = "title" then some (JsValue.raw 9) else none⟩)
      (JsValue.raw 0) = Except.ok 10 ∧
    mdxComponent (fun n => n + 1)
      (fun r => match r "title" with
                | some (JsValue.raw n) => Except.ok n
                | _ => Except.error 42)
      none (JsValue.raw 0) = Except.error 42 := by
  refine ⟨rfl, ?_, ?_⟩
  · exact (C5_mdx_component_validates_before_render (fun n => n + 1)
      (fun r => match r "title" with
                | some (JsValue.raw n) => Except.ok n
                | _ => Except.error 42)
      (some ⟨fun k => if k = "title" then some (JsValue.raw 9) else none⟩)
      (JsValue.raw 0) 9 42).1 rfl
  · exact ((C5_mdx_component_validates_before_render (fun n => n + 1)
      (fun r => match r "title" with
                | some (JsValue.raw n) => Except.ok n
                | _ => Except.error 42)
      none (JsValue.raw 0) 9 42).2 rfl).1

/-- C10: the object handed to the schema validator always maps `"children"`
to the children argument — overriding any `children` key of the node's
properties — every other key comes from the node's properties, and with the
node absent the object holds the children key alone. -/
theorem C10_children_key_overrides (nd : HastElement) (children : JsValue)
    (k : String) :
    nodePropsWithChildren (some nd) children "children" = some children ∧
    nodePropsWithChildren none children "children" = some children ∧
    (k ≠ "children" →
      nodePropsWithChildren (some nd) children k = nd.properties k) ∧
    (k ≠ "children" → nodePropsWithChildren none children k = none) := by
  refine ⟨by simp [nodePropsWithChildren], by simp [nodePropsWithChildren], ?_, ?_⟩
  · intro h
    simp [nodePropsWithChildren, h]
  · intro h
    simp [nodePropsWithChildren, h]

/-- Witness for C10 at a node whose properties record itself binds
`children`: the children argument still wins, and an unrelated key is read
from the node's properties. -/
theorem C10_witness :
    nodePropsWithChildren
      (some ⟨fun k => if k = "children" then some (JsValue.raw 3)
                      else if k = "variant" then some (JsValue.raw 4) else none⟩)
      (JsValue.raw 5) "children" = some (JsValue.raw 5) ∧
    nodePropsWithChildren
      (some ⟨fun k => if k = "children" then some (JsValue.raw 3)
                      else if k = "variant" then some (JsValue.raw 4) else none⟩)
      (JsValue.raw 5) "variant" = some (JsValue.raw 4) := by
  have h := C10_children_key_overrides
    ⟨fun k => if k = "children" then some (JsValue.raw 3)
              else if k = "variant" then some (JsValue.raw 4) else none⟩
    (JsValue.raw 5) "variant"
  exact ⟨h.1, (h.2.2.1 (by decide)).trans (by decide)⟩

/-- A node of the markdown syntax tree reaching the rehype stage: text,
ordinary elements, and embedded MDX JSX tags (flow or text) that the remark
MDX plugins produced and the passthrough option preserved. -/
inductive HastNode where
  | text (s : String)
  | element (tag : String) (attrs : List (String × JsValue)) (children : List HastNode)
  | mdxJsx (name : String) (attrs : List (String × JsValue)) (children : List HastNode)

mutual
/-- Modelled from the spec: the tag-conversion collaborator
(`rehype-mdx-elements`, not part of this repository) is the "converter from
embedded-tag nodes to renderer-native element nodes"; per the allowlist
contract exercised by the test suite, an embedded JSX tag whose name is on the
allowlist becomes an ordinary element node of that name, a tag not on the
allowlist is removed together with its children, and with no allowlist
(`allowedElements` undefined) every tag is converted. -/
def rehypeMdxNode (allowed : Option (List String)) : HastNode → List HastNode
  | .text s => [.text s]
  | .element t a cs => [.element t a (rehypeMdxList allowed cs)]
  | .mdxJsx n a cs =>
    match allowed with
    | none => [.element n a (rehypeMdxList allowed cs)]
    | some l => if n ∈ l then [.element n a (rehypeMdxList allowed cs)] else []

/-- Modelled from the spec: `rehypeMdxNode` applied across a list of sibling
nodes, concatenating results (a removed node contributes nothing). -/
def rehypeMdxList (allowed : Option (List String)) : List HastNode → List HastNode
  | [] => []
  | c :: cs => rehypeMdxNode allowed c ++ rehypeMdxList allowed cs
end

/-- Rendered output: text, a native DOM element, or an instance of a
caller-supplied component of type `C`. -/
inductive ROutput (C : Type) where
  | text (s : String)
  | domElement (tag : String) (attrs : List (String × JsValue))
      (children : List (ROutput C))
  | component (c : C) (attrs : List (String × JsValue))
      (children : List (ROutput C))

mutual
/-- Modelled from the spec: the underlying markdown renderer
(`react-markdown`, not part of this repository) renders a text node as text
and an element node through the caller's components map — the mapped
component when the tag is a key of the map, the native DOM element otherwise;
node kinds it does not know (a surviving raw MDX node) produce no output. -/
def renderNode {C : Type} (components : List (String × C)) :
    HastNode → List (ROutput C)
  | .text s => [.text s]
  | .element t a cs =>
    match components.lookup t with
    | some c => [.component c a (renderList components cs)]
    | none => [.domElement t a (renderList components cs)]
  | .mdxJsx _ _ _ => []

/-- Modelled from the spec: `renderNode` applied across sibling nodes. -/
def renderList {C : Type} (components : List (String × C)) :
    List HastNode → List (ROutput C)
  | [] => []
  | c :: cs => renderNode components c ++ renderList components cs
end

/-- The wrapped component's rendering pipeline on the syntax tree, with the
allowlist the wrapper derives (`allowedElements = Object.keys(components)`,
src/index.ts lines 45-48): tag conversion first, then rendering through the
components map. -/
def renderPipeline {C : Type} (components : List (String × C))
    (ns : List HastNode) : List (ROutput C) :=
  renderList components (rehypeMdxList (allowedComponents (some components)) ns)

theorem rehypeMdxList_append (allowed : Option (List String))
    (xs ys : List HastNode) :
    rehypeMdxList allowed (xs ++ ys) =
      rehypeMdxList allowed xs ++ rehypeMdxList allowed ys := by
  induction xs with
  | nil => simp [rehypeMdxList]
  | cons x xs ih => simp [rehypeMdxList, ih]

theorem renderList_append {C : Type} (components : List (String × C))
    (xs ys : List HastNode) :
    renderList components (xs ++ ys) =
      renderList components xs ++ renderList components ys := by
  induction xs with
  | nil => simp [renderList]
  | cons x xs ih => simp [renderList, ih]

theorem mem_objectKeys_of_lookup {C : Type} (m : List (String × C))
    (k : String) (c : C) (h : m.lookup k = some c) : k ∈ objectKeys m := by
  induction m with
  | nil => simp [List.lookup] at h
  | cons hd tl ih =>
    rw [List.lookup] at h
    by_cases hk : k = hd.1
    · simp [objectKeys, hk]
    · have hbeq : (k == hd.1) = false := beq_false_of_ne hk
      rw [hbeq] at h
      simp only [objectKeys, List.map_cons, List.mem_cons]
      exact Or.inr (ih h)


/-- C2: under the allowlist the wrapper derives (the keys of the components
map), an embedded JSX tag whose name is a key of the map renders as its mapped
component (wherever it sits among siblings, with its children rendered through
the same pipeline), a tag whose name is not a key disappears from the output
together with its children, and with an empty components map every embedded
JSX tag is removed. -/
theorem C2_allowlist_rendering {C : Type} (components : List (String × C))
    (name : String) (attrs : List (String × JsValue))
    (kids pre post : List HastNode) (c : C) :
    (components.lookup name = some c →
      renderPipeline components (pre ++ HastNode.mdxJsx name attrs kids :: post) =
        renderPipeline components pre ++
          ROutput.component c attrs (renderPipeline components kids) ::
            renderPipeline components post) ∧
    (name ∉ objectKeys components →
      renderPipeline components (pre ++ HastNode.mdxJsx name attrs kids :: post) =
        renderPipeline components pre ++ renderPipeline components post) ∧
    renderPipeline ([] : List (String × C)) [HastNode.mdxJsx name attrs kids] = [] := by
  refine ⟨?_, ?_, ?_⟩
  · intro h
    have hmem : name ∈ objectKeys components :=
      mem_objectKeys_of_lookup components name c h
    simp [renderPipeline, rehypeMdxList_append, renderList_append, rehypeMdxList,
      rehypeMdxNode, allowedComponents, hmem, renderNode, renderList, h]
  · intro hmem
    simp [renderPipeline, rehypeMdxList_append, renderList_append, rehypeMdxList,
      rehypeMdxNode, allowedComponents, hmem, renderList]
  · simp [renderPipeline, rehypeMdxList, rehypeMdxNode, allowedComponents,
      objectKeys, renderList]

/-- Witness for C2: with the map `{ TestButton }`, the tag `TestButton`
renders as the mapped component while the tag `NotAllowed` (with a text
child) renders as nothing. -/
theorem C2_witness :
    renderPipeline [("TestButton", 0)]
        ([] ++ HastNode.mdxJsx "TestButton" [] [] :: []) =
      renderPipeline [("TestButton", 0)] [] ++
        ROutput.component 0 [] (renderPipeline [("TestButton", 0)] []) ::
          renderPipeline [("TestButton", 0)] [] ∧
    renderPipeline [("TestButton", 0)]
        ([] ++ HastNode.mdxJsx "NotAllowed" [] [HastNode.text "Blocked"] :: []) =
      renderPipeline [("TestButton", 0)] [] ++ renderPipeline [("TestButton", 0)] [] := by
  constructor
  · exact (C2_allowlist_rendering [("TestButton", 0)] "TestButton" [] [] [] [] 0).1 rfl
  · exact (C2_allowlist_rendering [("TestButton", 0)] "NotAllowed" []
      [HastNode.text "Blocked"] [] [] 0).2.1 (by decide)
